import Mathlib

/-!
Verification of the discussion-server match engine.

This file gives a shallow embedding, in Lean 4, of the parts of the
TypeScript debate-match server that the checked properties talk about:
the combined AI/human score blending (`calculateCombinedScore`), the Elo
rating update (`calculateEloRating`), the per-match battle state with its
timers and penalty accounting (`timeUtils.ts` and the socket battle
handlers), the message log with duplicate suppression (`addMessage`), and
the room-registry ready toggle (`player_ready`).

JavaScript numbers are modelled as exact rationals (`ℚ`) for the score
arithmetic (all scores involved are integers in 0..100, for which the
floating-point computation agrees with the exact one: `0.4·x + 0.6·y`
with integer `x`, `y` is never within `10⁻¹` of a half-integer, far
beyond double rounding error), as integers (`ℤ`) for millisecond
timestamps, and as reals (`ℝ`) for the Elo formula.  Mutation of the
global `battleStates[roomId]` record is modelled by functions from a
state to an optional state (`none` = the entry was deleted) together
with the list of socket events the handler emits, in emission order.
The source's unguarded `state.timers[userId]` accesses throw a
TypeError for a participant without a timer entry (only the two
debaters get timers at match start); in the time-accounting functions
this throw is modelled as an `Option`-`none` result, and at the
`send_message` handler level as the `HandlerOutcome.thrown` outcome:
the handler aborts before any mutation, leaving the stored state
untouched and emitting nothing.
-/

namespace DiscussionServer

/-- Participant role, as in `types/battle.ts` (`'player' | 'spectator' | 'referee'`). -/
inductive Role where
  | player
  | spectator
  | referee
deriving DecidableEq

/-- Debate position (`'agree' | 'disagree'`; `Option` models the optional field). -/
inductive Position where
  | agree
  | disagree
deriving DecidableEq

/-- A room participant, from the `Player` interface of `types/battle.ts`.
`socketId` and the rating snapshots are omitted: none of the checked
properties mentions them. -/
structure Player where
  userId : String
  displayname : String
  role : Role
  position : Option Position
  isReady : Bool
deriving DecidableEq

/-- One side of a verdict (`{score, good, bad}`). -/
structure SideResult where
  score : ℚ
  good : String
  bad : String
deriving DecidableEq

/-- The structured verdict (`AIEvaluationResult` in `types/battle.ts`). -/
structure AIEvaluationResult where
  agree : SideResult
  disagree : SideResult
  winner : String
deriving DecidableEq

/-- The `{agree, disagree}` pair a human referee submits. -/
structure HumanScores where
  agree : ℚ
  disagree : ℚ
deriving DecidableEq

/-- JavaScript `Math.round`: round half toward positive infinity. -/
def jsRound (q : ℚ) : ℤ := ⌊q + 1/2⌋

/-- JavaScript `Math.max` on integers. -/
def jsMax (a b : ℤ) : ℤ := if a ≤ b then b else a

/-- JavaScript `Math.min` on integers. -/
def jsMin (a b : ℤ) : ℤ := if a ≤ b then a else b

/-- `calculateCombinedScore` from `utils/calculateCombinedScore.ts`:
weighted average (AI 40% + human 60%), rounded, clamped to [0,100].
The source computes `finalWinner` by an if/else-if whose every branch
assigns `aiResult.winner` (the comments there say the agree/disagree
player's id should "actually" be used); this embedding reproduces that
branch structure literally. -/
def calculateCombinedScore (aiResult : AIEvaluationResult) (humanScores : HumanScores) :
    AIEvaluationResult :=
  let agreeFinalScore : ℤ :=
    jsRound (aiResult.agree.score * 0.4 + humanScores.agree * 0.6)
  let disagreeFinalScore : ℤ :=
    jsRound (aiResult.disagree.score * 0.4 + humanScores.disagree * 0.6)
  let agreeScore : ℤ := jsMax 0 (jsMin 100 agreeFinalScore)
  let disagreeScore : ℤ := jsMax 0 (jsMin 100 disagreeFinalScore)
  let finalWinner : String :=
    if agreeScore > disagreeScore then aiResult.winner
    else if disagreeScore > agreeScore then aiResult.winner
    else aiResult.winner
  { agree :=
      { score := (agreeScore : ℚ)
        good := aiResult.agree.good ++ " (AI: " ++ toString aiResult.agree.score
                  ++ "점, 심판: " ++ toString humanScores.agree ++ "점)"
        bad := aiResult.agree.bad }
    disagree :=
      { score := (disagreeScore : ℚ)
        good := aiResult.disagree.good ++ " (AI: " ++ toString aiResult.disagree.score
                  ++ "점, 심판: " ++ toString humanScores.disagree ++ "점)"
        bad := aiResult.disagree.bad }
    winner := finalWinner }

/-- `calculateEloRating` from `utils/calculateEloRating.ts`: continuous
logistic K-factor, logistic expected score, additive update, no rounding. -/
noncomputable def calculateEloRating (playerRating opponentRating : ℝ) (won : Bool) : ℝ :=
  let kFactor : ℝ :=
    35.0115796 / (1 + Real.exp ((playerRating - 1930.63327881) / 240.64853294)) + 9.99989887
  let expectedScore : ℝ :=
    1 / (1 + (10 : ℝ) ^ ((opponentRating - playerRating) / 400))
  let actualScore : ℝ := if won then 1 else 0
  playerRating + kFactor * (actualScore - expectedScore)

/-- Sender tag of a logged message (`'system' | 'judge' | 'agree' | 'disagree'`). -/
inductive Sender where
  | system
  | judge
  | agree
  | disagree
deriving DecidableEq

/-- A stored message (`MessageEntry`). -/
structure MessageEntry where
  sender : Sender
  text : String
  timestamp : ℤ
deriving DecidableEq

/-- One turn of the debate stored in `discussionLog`. -/
structure DiscussionLogEntry where
  userId : String
  message : String
  stage : ℕ
deriving DecidableEq

/-- Per-player timer record (`PlayerTimer`), in milliseconds. -/
structure PlayerTimer where
  totalTimeUsed : ℤ
  roundTimeUsed : ℤ
  penaltyPoints : ℤ
  penaltyCount : ℤ
  isOvertime : Bool
  overtimeStarted : Option ℤ
deriving DecidableEq

/-- The value of `battleStates[roomId]` (`BattleState[string]` in
`types/battle.ts`).  The `timers` map is an association list keyed by
`userId`; `penaltyPoints` is the per-overflow step (the source reuses the
field name for the constant 3), `subjectUuid` stands for `subject.uuid`. -/
structure BattleSt where
  stage : ℕ
  discussionLog : List DiscussionLogEntry
  messages : List MessageEntry
  players : List Player
  subjectUuid : String
  agreePlayer : Player
  disagreePlayer : Player
  timers : List (String × PlayerTimer)
  currentTurnStartTime : Option ℤ
  roundTimeLimit : ℤ
  totalTimeLimit : ℤ
  overtimeLimit : ℤ
  penaltyPoints : ℤ
  maxPenaltyPoints : ℤ
  isGameEndedByPenalty : Bool
  aiEvaluationResult : Option AIEvaluationResult
  humanRefereeScores : Option HumanScores
deriving DecidableEq

/-- `state.timers[userId]` (read). -/
def lookupTimer (ts : List (String × PlayerTimer)) (u : String) : Option PlayerTimer :=
  (ts.find? (fun e => decide (e.1 = u))).map Prod.snd

/-- `state.timers[userId] = t` (write; absent keys are untouched, matching
the source where both players' timers are created at match start). -/
def setTimer (ts : List (String × PlayerTimer)) (u : String) (t : PlayerTimer) :
    List (String × PlayerTimer) :=
  ts.map (fun e => if e.1 = u then (u, t) else e)

/-- The socket events a handler emits, in emission order.  `statsUpdated
u o w` stands for the `updateUserStats(u, o, w)` call (the Elo + win/loss
write), `battleSaved` for the `saveBattleResult` insert of the match row
with its verdict. -/
inductive Event where
  | messagesUpdated (msgs : List MessageEntry)
  | aiJudgeMessage (message : String) (stage : ℕ)
  | turnInfo (currentPlayerId : String) (stage : ℕ)
  | playerListUpdated
  | penaltyApplied (userId : String) (penaltyPoints : ℤ)
  | overtimeGranted (userId : String)
  | timeExtended (userId : String) (seconds : ℤ)
  | timeReduced (userId : String) (seconds : ℤ)
  | battleResult (result : AIEvaluationResult)
  | battleError (message : String)
  | statsUpdated (userId opponentId : String) (won : Bool)
  | battleSaved (player1 player2 winnerId : String) (result : AIEvaluationResult)
  | showRefereeScoreModal
deriving DecidableEq

/-- `addMessage` from `battleHandlers.ts`: append unless some stored
entry already has the same `(sender, text)`; broadcast the full list on a
real append. -/
def addMessage (st : BattleSt) (sender : Sender) (text : String) (now : ℤ) :
    BattleSt × List Event :=
  let isDuplicate :=
    st.messages.any (fun msg => decide (msg.sender = sender) && decide (msg.text = text))
  if isDuplicate then (st, [])
  else
    let msgs := st.messages ++ [{ sender := sender, text := text, timestamp := now }]
    ({ st with messages := msgs }, [Event.messagesUpdated msgs])

/-- The verdict `handleAutomaticDefeat` fabricates for winner `winnerId`. -/
def automaticVerdict (st : BattleSt) (winnerId : String) : AIEvaluationResult :=
  { agree :=
      { score := if winnerId = st.agreePlayer.userId then 100 else 0
        good := "시간 관리 우수"
        bad := "" }
    disagree :=
      { score := if winnerId = st.disagreePlayer.userId then 100 else 0
        good := "시간 관리 우수"
        bad := "" }
    winner := winnerId }

/-- Text of the stage-11 judge message announcing the forfeit. -/
def defeatText (displayname : String) : String :=
  "시간 초과로 인한 감점이 18점에 도달했습니다. " ++ displayname ++ "님의 패배로 경기가 종료됩니다."

/-- `handleAutomaticDefeat` from `timeUtils.ts`: find the defeated player
and the first other participant, fabricate the 100/0 verdict, emit the
stage-11 judge message, `battle_result`, the two stats updates and the
battles insert, then delete the state.  If either lookup fails the source
returns before mutating anything. -/
def handleAutomaticDefeat (st : BattleSt) (defeatedUserId : String) :
    Option BattleSt × List Event :=
  let defeatedPlayer := st.players.find? (fun p => decide (p.userId = defeatedUserId))
  let winnerId :=
    (st.players.find? (fun p => decide (p.userId ≠ defeatedUserId))).map Player.userId
  match winnerId, defeatedPlayer with
  | some w, some dp =>
    let result := automaticVerdict st w
    (none,
      [Event.aiJudgeMessage (defeatText dp.displayname) 11,
       Event.battleResult result,
       Event.statsUpdated w defeatedUserId true,
       Event.statsUpdated defeatedUserId w false,
       Event.battleSaved st.agreePlayer.userId st.disagreePlayer.userId w result])
  | _, _ => (some st, [])

/-- Which limit overflowed (`'round' | 'total'`). -/
inductive OverflowType where
  | round
  | total
deriving DecidableEq

/-- `handleTimeOverflow` from `timeUtils.ts`: add the penalty step,
count the penalty, enter overtime; on `penaltyPoints ≥ maxPenaltyPoints`
hand over to `handleAutomaticDefeat`, otherwise announce the penalty and
the overtime grant.  The missing-timer branch is unreachable for match
players (their timers are created at match start). -/
def handleTimeOverflow (now : ℤ) (st : BattleSt) (userId : String) (_type : OverflowType) :
    Option BattleSt × List Event :=
  match lookupTimer st.timers userId with
  | none => (some st, [])
  | some t =>
    let t' : PlayerTimer :=
      { t with
        penaltyPoints := t.penaltyPoints + st.penaltyPoints
        penaltyCount := t.penaltyCount + 1
        isOvertime := true
        overtimeStarted := some now }
    let st' := { st with timers := setTimer st.timers userId t' }
    if st.maxPenaltyPoints ≤ t'.penaltyPoints then
      handleAutomaticDefeat st' userId
    else
      (st', [Event.penaltyApplied userId t'.penaltyPoints, Event.overtimeGranted userId])

/-- `calculateTimeUsed`: elapsed round/total milliseconds at `now`, zero
when no turn is running.  While a turn IS running, the source reads
`state.timers[userId].totalTimeUsed` unguarded (timeUtils.ts:135): for a
userId with no timer entry (referee or spectator — only the two debaters
get timers at match start) this throws a TypeError, modelled as `none`. -/
def calculateTimeUsed (now : ℤ) (st : BattleSt) (userId : String) : Option (ℤ × ℤ) :=
  match st.currentTurnStartTime with
  | none => some (0, 0)
  | some start =>
    let roundTimeUsed := now - start
    match lookupTimer st.timers userId with
    | none => none
    | some t => some (roundTimeUsed, t.totalTimeUsed + roundTimeUsed)

/-- `updatePlayerTime`: absorb the elapsed time into the player's timer.
`none` models the TypeError escaping from `calculateTimeUsed` (the
throw happens before any mutation, so the stored state is untouched). -/
def updatePlayerTime (now : ℤ) (st : BattleSt) (userId : String) : Option BattleSt :=
  match st.currentTurnStartTime with
  | none => some st
  | some _ =>
    match calculateTimeUsed now st userId with
    | none => none
    | some used =>
      match lookupTimer st.timers userId with
      | none => none
      | some t =>
        let t' := { t with roundTimeUsed := used.1, totalTimeUsed := used.2 }
        some { st with timers := setTimer st.timers userId t' }

/-- `checkTimeLimit`: trigger a round or total overflow when the
corresponding budget is exceeded outside overtime; the boolean is the
source's return value.  `none` models a TypeError: either from
`calculateTimeUsed`, or from the unguarded `playerTimer.isOvertime`
read, which JavaScript's `&&` only evaluates (and which only then
throws for a timer-less userId) when the overflow comparison before it
is true. -/
def checkTimeLimit (now : ℤ) (st : BattleSt) (userId : String) :
    Option ((Option BattleSt × List Event) × Bool) :=
  match calculateTimeUsed now st userId with
  | none => none
  | some used =>
    match lookupTimer st.timers userId with
    | some t =>
      if st.roundTimeLimit < used.1 ∧ t.isOvertime = false then
        some (handleTimeOverflow now st userId OverflowType.round, true)
      else if st.totalTimeLimit < used.2 ∧ t.isOvertime = false then
        some (handleTimeOverflow now st userId OverflowType.total, true)
      else
        some ((some st, []), false)
    | none =>
      if st.roundTimeLimit < used.1 then none
      else if st.totalTimeLimit < used.2 then none
      else some ((some st, []), false)

/-- `startTurnTimer`: record the turn start and reset the speaker's round
usage and overtime flag (the 1 s broadcast interval is real-time
machinery outside this embedding). -/
def startTurnTimer (now : ℤ) (st : BattleSt) (userId : String) : BattleSt :=
  let st' := { st with currentTurnStartTime := some now }
  match lookupTimer st'.timers userId with
  | none => st'
  | some t =>
    let t' := { t with roundTimeUsed := 0, isOvertime := false }
    { st' with timers := setTimer st'.timers userId t' }

/-- Winner normalisation in `conductAIEvaluation`: a `"agree"`/`"disagree"`
token (or an already-correct id) is replaced by the player's userId. -/
def normalizeWinner (st : BattleSt) (r : AIEvaluationResult) : AIEvaluationResult :=
  if r.winner = "agree" ∨ r.winner = st.agreePlayer.userId then
    { r with winner := st.agreePlayer.userId }
  else if r.winner = "disagree" ∨ r.winner = st.disagreePlayer.userId then
    { r with winner := st.disagreePlayer.userId }
  else r

/-- `conductAIEvaluation` from `battleHandlers.ts`.  The two-shot call to
the external evaluator is abstracted by `judge`: `none` when either pass
fails (malformed output, network error, empty response — the `catch`
path), `some (verdict, narration)` when both succeed.  On success with a
human referee present the verdict is stored and the score modal is shown;
without one the result is broadcast, stats updated, the row saved and the
state deleted.  On failure the source emits `battle_error` and returns
from the `catch` with the state untouched. -/
def conductAIEvaluation (judge : Option (AIEvaluationResult × String)) (st : BattleSt) :
    Option BattleSt × List Event :=
  let ev0 := Event.aiJudgeMessage "토론이 종료되었습니다. AI가 채점을 시작합니다..." 10
  match judge with
  | none => (some st, [ev0, Event.battleError "AI 채점 중 오류가 발생했습니다."])
  | some (raw, narration) =>
    let resultJson := normalizeWinner st raw
    let st1 := { st with aiEvaluationResult := some resultJson }
    let evs := [ev0, Event.aiJudgeMessage narration 10]
    let hasHumanReferee := st.players.any (fun p => decide (p.role = Role.referee))
    if hasHumanReferee then
      (some st1, evs ++ [Event.showRefereeScoreModal])
    else
      let winnerId := resultJson.winner
      let loserId :=
        (st.players.find? (fun p => decide (p.userId ≠ winnerId))).map Player.userId
      let statsEvs := match loserId with
        | some l => [Event.statsUpdated winnerId l true, Event.statsUpdated l winnerId false]
        | none => []
      (none,
        evs ++ [Event.battleResult resultJson] ++ statsEvs
            ++ [Event.battleSaved st.agreePlayer.userId st.disagreePlayer.userId winnerId
                  resultJson])

/-- `proceedToNextStage`: increment `stage`, then per the switch start
the next speaker's turn and announce it (stages 2–9), or run the
evaluation (stage 10); any other stage value falls through. -/
def proceedToNextStage (judge : Option (AIEvaluationResult × String)) (now : ℤ)
    (st : BattleSt) : Option BattleSt × List Event :=
  let st1 := { st with stage := st.stage + 1 }
  match st1.stage with
  | 2 =>
    (some (startTurnTimer now st1 st1.disagreePlayer.userId),
      [Event.turnInfo st1.disagreePlayer.userId 2])
  | 3 =>
    (some (startTurnTimer now st1 st1.disagreePlayer.userId),
      [Event.aiJudgeMessage ("이제 질문 단계입니다. 반대측 " ++ st1.disagreePlayer.displayname
          ++ "님이 찬성측에게 질문해주세요.") 3,
       Event.turnInfo st1.disagreePlayer.userId 3])
  | 4 =>
    (some (startTurnTimer now st1 st1.agreePlayer.userId),
      [Event.turnInfo st1.agreePlayer.userId 4])
  | 5 =>
    (some (startTurnTimer now st1 st1.disagreePlayer.userId),
      [Event.turnInfo st1.disagreePlayer.userId 5])
  | 6 =>
    (some (startTurnTimer now st1 st1.agreePlayer.userId),
      [Event.turnInfo st1.agreePlayer.userId 6])
  | 7 =>
    (some (startTurnTimer now st1 st1.disagreePlayer.userId),
      [Event.turnInfo st1.disagreePlayer.userId 7])
  | 8 =>
    (some (startTurnTimer now st1 st1.agreePlayer.userId),
      [Event.aiJudgeMessage ("이제 최종발언 단계입니다. 찬성측 " ++ st1.agreePlayer.displayname
          ++ "님부터 최종발언을 해주세요.") 8,
       Event.turnInfo st1.agreePlayer.userId 8])
  | 9 =>
    (some (startTurnTimer now st1 st1.disagreePlayer.userId),
      [Event.turnInfo st1.disagreePlayer.userId 9])
  | 10 => conductAIEvaluation judge st1
  | _ => (some st1, [])

/-- Outcome of one socket-handler invocation.  `thrown` models an
uncaught TypeError escaping the handler: execution aborts at the throw,
so the stored `battleStates[roomId]` entry is left exactly as it was
and nothing (further) is emitted for the room.  `returned st evs` is a
normal run ending with stored state `st` (`none` = deleted) and emitted
events `evs`. -/
inductive HandlerOutcome where
  | thrown
  | returned (state : Option BattleSt) (events : List Event)
deriving DecidableEq

/-- The stored state after a handler run: a `thrown` run never touches
the store, a `returned` run leaves its resulting state. -/
def HandlerOutcome.stateOf (st : BattleSt) : HandlerOutcome → Option BattleSt
  | .thrown => some st
  | .returned s _ => s

/-- Whether the handler run ended in an uncaught TypeError. -/
def HandlerOutcome.isThrown : HandlerOutcome → Bool
  | .thrown => true
  | .returned _ _ => false

/-- The `send_message` handler.  Reject silently when the sender is not
in the match's player list or the game already ended by penalty; then
absorb elapsed time (`updatePlayerTime`, which throws for a timer-less
sender while a turn is running) and run the time check (which can throw,
penalise, grant overtime, or end the match by forfeit); if no throw and
the match survived, append the turn to `discussionLog`, log the message
under the sender's side tag, and advance the stage.  The source never
compares `userId` against the current speaker. -/
def sendMessage (now : ℤ) (judge : Option (AIEvaluationResult × String)) (st : BattleSt)
    (userId message : String) : HandlerOutcome :=
  match st.players.find? (fun p => decide (p.userId = userId)) with
  | none => .returned (some st) []
  | some _ =>
    if st.isGameEndedByPenalty then .returned (some st) []
    else
      match updatePlayerTime now st userId with
      | none => .thrown
      | some st1 =>
        match checkTimeLimit now st1 userId with
        | none => .thrown
        | some ((none, evs2), _) => .returned none evs2
        | some ((some st2, evs2), _) =>
          if st2.isGameEndedByPenalty then .returned (some st2) evs2
          else
            let entry : DiscussionLogEntry :=
              { userId := userId, message := message, stage := st2.stage }
            let st3 := { st2 with discussionLog := st2.discussionLog ++ [entry] }
            let sender :=
              if userId = st3.agreePlayer.userId then Sender.agree else Sender.disagree
            let r4 := addMessage st3 sender message now
            let r5 := proceedToNextStage judge now r4.1
            .returned r5.1 (evs2 ++ r4.2 ++ r5.2)

/-- The `referee_add_points` handler: a referee decreases the target's
penalty points, clamped at 0, and the new value is announced. -/
def refereeAddPoints (st : BattleSt) (targetUserId : String) (points : ℤ)
    (refereeId : String) : Option BattleSt × List Event :=
  match st.players.find? (fun p => decide (p.userId = refereeId) && decide (p.role = Role.referee)) with
  | none => (some st, [])
  | some _ =>
    match st.players.find? (fun p => decide (p.userId = targetUserId)) with
    | none => (some st, [])
    | some _ =>
      match lookupTimer st.timers targetUserId with
      | none => (some st, [])
      | some t =>
        let t' := { t with penaltyPoints := jsMax 0 (t.penaltyPoints - points) }
        let st' := { st with timers := setTimer st.timers targetUserId t' }
        (some st', [Event.penaltyApplied targetUserId t'.penaltyPoints])

/-- The `referee_deduct_points` handler: a referee increases the target's
penalty points, clamped at `maxPenaltyPoints`; reaching the threshold
fires `handleAutomaticDefeat` at once, otherwise the penalty is
announced. -/
def refereeDeductPoints (st : BattleSt) (targetUserId : String) (points : ℤ)
    (refereeId : String) : Option BattleSt × List Event :=
  match st.players.find? (fun p => decide (p.userId = refereeId) && decide (p.role = Role.referee)) with
  | none => (some st, [])
  | some _ =>
    match st.players.find? (fun p => decide (p.userId = targetUserId)) with
    | none => (some st, [])
    | some _ =>
      match lookupTimer st.timers targetUserId with
      | none => (some st, [])
      | some t =>
        let t' := { t with penaltyPoints := jsMin st.maxPenaltyPoints (t.penaltyPoints + points) }
        let st' := { st with timers := setTimer st.timers targetUserId t' }
        if st.maxPenaltyPoints ≤ t'.penaltyPoints then
          handleAutomaticDefeat st' targetUserId
        else
          (some st', [Event.penaltyApplied targetUserId t'.penaltyPoints])

/-- The `referee_submit_scores` handler: after the permission check the
human scores are stored; only if an AI verdict is already present are the
scores blended, broadcast, applied to stats, persisted, and the state
deleted.  Without a stored verdict nothing further happens. -/
def refereeSubmitScores (st : BattleSt) (scores : HumanScores) (refereeId : String) :
    Option BattleSt × List Event :=
  match st.players.find? (fun p => decide (p.userId = refereeId) && decide (p.role = Role.referee)) with
  | none => (some st, [])
  | some _ =>
    let st1 := { st with humanRefereeScores := some scores }
    match st1.aiEvaluationResult with
    | none => (some st1, [])
    | some aiResult =>
      let finalResult := calculateCombinedScore aiResult scores
      let winnerId := finalResult.winner
      let loserId :=
        (st1.players.find? (fun p => decide (p.userId ≠ winnerId))).map Player.userId
      let statsEvs := match loserId with
        | some l => [Event.statsUpdated winnerId l true, Event.statsUpdated l winnerId false]
        | none => []
      (none,
        [Event.battleResult finalResult] ++ statsEvs
          ++ [Event.battleSaved st1.agreePlayer.userId st1.disagreePlayer.userId winnerId
                finalResult])

/-- A lobby room (`BattleRoom` in `types/database.ts`), restricted to the
fields the ready/start logic reads. -/
structure BattleRoom where
  roomId : String
  players : List Player
  battleStarted : Bool
  hasReferee : Bool
  isFull : Bool
  isCompleted : Bool
deriving DecidableEq

/-- Flip the `isReady` flag of the first participant with the given
userId (the source mutates the object `find` returned). -/
def toggleFirstReady : List Player → String → List Player
  | [], _ => []
  | p :: ps, u =>
    if p.userId = u then { p with isReady := !p.isReady } :: ps
    else p :: toggleFirstReady ps u

/-- The `player_ready` handler from `roomHandlers.ts`: toggle the
participant's `isReady`; then, counting only participants with role
`player`, if at least two exist and at least two of them are ready, set
`battleStarted` and broadcast `battle_start` (the returned boolean). -/
def playerReady (room : BattleRoom) (userId : String) : BattleRoom × Bool :=
  if room.players.any (fun p => decide (p.userId = userId)) then
    let players' := toggleFirstReady room.players userId
    let rolePlayers := players'.filter (fun p => decide (p.role = Role.player))
    let readyPlayers := rolePlayers.filter (fun p => p.isReady)
    if 2 ≤ rolePlayers.length ∧ 2 ≤ readyPlayers.length then
      ({ room with players := players', battleStarted := true }, true)
    else
      ({ room with players := players' }, false)
  else (room, false)

section Lemmas

theorem jsMax_eq_max (a b : ℤ) : jsMax a b = max a b := by
  unfold jsMax; split <;> omega

theorem jsMin_eq_min (a b : ℤ) : jsMin a b = min a b := by
  unfold jsMin; split <;> omega

theorem startTurnTimer_fields (now : ℤ) (st : BattleSt) (u : String) :
    (startTurnTimer now st u).stage = st.stage
      ∧ (startTurnTimer now st u).discussionLog = st.discussionLog
      ∧ (startTurnTimer now st u).messages = st.messages
      ∧ (startTurnTimer now st u).isGameEndedByPenalty = st.isGameEndedByPenalty := by
  simp only [startTurnTimer]
  split <;> simp

theorem updatePlayerTime_fields (now : ℤ) (st : BattleSt) (u : String) (st1 : BattleSt)
    (h : updatePlayerTime now st u = some st1) :
    st1.stage = st.stage
      ∧ st1.discussionLog = st.discussionLog
      ∧ st1.messages = st.messages
      ∧ st1.players = st.players
      ∧ st1.agreePlayer = st.agreePlayer
      ∧ st1.disagreePlayer = st.disagreePlayer
      ∧ st1.isGameEndedByPenalty = st.isGameEndedByPenalty := by
  simp only [updatePlayerTime] at h
  split at h
  · simp at h
    subst h
    simp
  · split at h
    · simp at h
    · split at h
      · simp at h
      · simp at h
        subst h
        simp

theorem handleAutomaticDefeat_alive (st : BattleSt) (u : String) (st' : BattleSt)
    (evs : List Event) (h : handleAutomaticDefeat st u = (some st', evs)) : st' = st := by
  simp only [handleAutomaticDefeat] at h
  split at h
  · simp at h
  · simp at h; exact h.1.symm

theorem handleAutomaticDefeat_sentinel (st : BattleSt) (u : String) (evs : List Event)
    (h : handleAutomaticDefeat st u = (none, evs)) :
    ∃ s, Event.aiJudgeMessage s 11 ∈ evs := by
  simp only [handleAutomaticDefeat] at h
  split at h
  · rename_i w dp _ _
    simp at h
    exact ⟨defeatText dp.displayname, by simp [← h]⟩
  · simp at h

theorem handleTimeOverflow_alive (now : ℤ) (st : BattleSt) (u : String) (ty : OverflowType)
    (st' : BattleSt) (evs : List Event) (h : handleTimeOverflow now st u ty = (some st', evs)) :
    st'.stage = st.stage ∧ st'.discussionLog = st.discussionLog
      ∧ st'.messages = st.messages ∧ st'.players = st.players
      ∧ st'.agreePlayer = st.agreePlayer ∧ st'.disagreePlayer = st.disagreePlayer
      ∧ st'.isGameEndedByPenalty = st.isGameEndedByPenalty := by
  simp only [handleTimeOverflow] at h
  split at h
  · simp at h; simp [h.1.symm]
  · split at h
    · have := handleAutomaticDefeat_alive _ _ _ _ h
      simp [this]
    · simp at h; simp [h.1.symm]

theorem handleTimeOverflow_sentinel (now : ℤ) (st : BattleSt) (u : String)
    (ty : OverflowType) (evs : List Event) (h : handleTimeOverflow now st u ty = (none, evs)) :
    ∃ s, Event.aiJudgeMessage s 11 ∈ evs := by
  simp only [handleTimeOverflow] at h
  split at h
  · simp at h
  · split at h
    · exact handleAutomaticDefeat_sentinel _ _ _ h
    · simp at h

theorem checkTimeLimit_alive (now : ℤ) (st : BattleSt) (u : String) (st' : BattleSt)
    (evs : List Event) (b : Bool) (h : checkTimeLimit now st u = some ((some st', evs), b)) :
    st'.stage = st.stage ∧ st'.discussionLog = st.discussionLog
      ∧ st'.messages = st.messages ∧ st'.players = st.players
      ∧ st'.agreePlayer = st.agreePlayer ∧ st'.disagreePlayer = st.disagreePlayer
      ∧ st'.isGameEndedByPenalty = st.isGameEndedByPenalty := by
  simp only [checkTimeLimit] at h
  split at h
  · simp at h
  · split at h
    · split at h
      · simp at h; exact handleTimeOverflow_alive _ _ _ _ _ _ h.1
      · split at h
        · simp at h; exact handleTimeOverflow_alive _ _ _ _ _ _ h.1
        · simp at h; simp [h.1.symm]
    · split at h
      · simp at h
      · split at h
        · simp at h
        · simp at h; simp [h.1.symm]

theorem checkTimeLimit_sentinel (now : ℤ) (st : BattleSt) (u : String)
    (evs : List Event) (b : Bool) (h : checkTimeLimit now st u = some ((none, evs), b)) :
    ∃ s, Event.aiJudgeMessage s 11 ∈ evs := by
  simp only [checkTimeLimit] at h
  split at h
  · simp at h
  · split at h
    · split at h
      · simp at h; exact handleTimeOverflow_sentinel _ _ _ _ _ h.1
      · split at h
        · simp at h; exact handleTimeOverflow_sentinel _ _ _ _ _ h.1
        · simp at h
    · split at h
      · simp at h
      · split at h
        · simp at h
        · simp at h

theorem addMessage_fields (st : BattleSt) (s : Sender) (txt : String) (now : ℤ) :
    (addMessage st s txt now).1.stage = st.stage
      ∧ (addMessage st s txt now).1.discussionLog = st.discussionLog := by
  simp only [addMessage]
  split <;> simp

theorem conductAIEvaluation_alive (judge : Option (AIEvaluationResult × String))
    (st : BattleSt) (st' : BattleSt) (evs : List Event)
    (h : conductAIEvaluation judge st = (some st', evs)) :
    st'.stage = st.stage ∧ st'.discussionLog = st.discussionLog := by
  simp only [conductAIEvaluation] at h
  split at h
  · simp at h; simp [h.1.symm]
  · split at h
    · simp at h; simp [← h.1]
    · simp at h

theorem proceedToNextStage_alive (judge : Option (AIEvaluationResult × String)) (now : ℤ)
    (st : BattleSt) (st' : BattleSt) (evs : List Event)
    (h : proceedToNextStage judge now st = (some st', evs)) :
    st'.stage = st.stage + 1 ∧ st'.discussionLog = st.discussionLog := by
  simp only [proceedToNextStage] at h
  split at h <;>
    first
    | (simp at h
       rcases h with ⟨h1, _⟩
       subst h1
       simp [startTurnTimer_fields])
    | (exact conductAIEvaluation_alive _ _ _ _ h)

theorem proceedToNextStage_none (judge : Option (AIEvaluationResult × String)) (now : ℤ)
    (st : BattleSt) (evs : List Event) (h : proceedToNextStage judge now st = (none, evs)) :
    st.stage + 1 = 10 := by
  simp only [proceedToNextStage] at h
  split at h <;> simp_all

theorem addMessage_stage (st : BattleSt) (s : Sender) (txt : String) (now : ℤ) :
    (addMessage st s txt now).1.stage = st.stage := (addMessage_fields st s txt now).1

theorem addMessage_log (st : BattleSt) (s : Sender) (txt : String) (now : ℤ) :
    (addMessage st s txt now).1.discussionLog = st.discussionLog :=
  (addMessage_fields st s txt now).2

theorem proceedToNextStage_fst_alive (judge : Option (AIEvaluationResult × String))
    (now : ℤ) (y : BattleSt) (st' : BattleSt)
    (h : (proceedToNextStage judge now y).1 = some st') :
    st'.stage = y.stage + 1 ∧ st'.discussionLog = y.discussionLog := by
  rcases hp : proceedToNextStage judge now y with ⟨o, e⟩
  rw [hp] at h
  cases o with
  | none => simp at h
  | some z =>
    simp at h
    subst h
    exact proceedToNextStage_alive judge now y _ e hp

theorem proceedToNextStage_fst_none (judge : Option (AIEvaluationResult × String))
    (now : ℤ) (y : BattleSt)
    (h : (proceedToNextStage judge now y).1 = none) : y.stage + 1 = 10 := by
  rcases hp : proceedToNextStage judge now y with ⟨o, e⟩
  rw [hp] at h
  cases o with
  | none => exact proceedToNextStage_none judge now y e hp
  | some z => simp at h

theorem toggleFirstReady_of_not_found (l : List Player) (u : String)
    (h : l.any (fun p => decide (p.userId = u)) = false) : toggleFirstReady l u = l := by
  induction l with
  | nil => rfl
  | cons p ps ih =>
    simp only [List.any_cons, Bool.or_eq_false_iff, decide_eq_false_iff_not] at h
    simp only [toggleFirstReady, if_neg h.1]
    rw [ih (by simpa using h.2)]

theorem toggleFirstReady_involutive (l : List Player) (u : String) :
    toggleFirstReady (toggleFirstReady l u) u = l := by
  induction l with
  | nil => rfl
  | cons p ps ih =>
    by_cases hp : p.userId = u
    · subst hp
      simp [toggleFirstReady, Bool.not_not]
    · simp [toggleFirstReady, hp, ih]

theorem toggleFirstReady_any_userId (l : List Player) (u : String) :
    (toggleFirstReady l u).any (fun p => decide (p.userId = u))
      = l.any (fun p => decide (p.userId = u)) := by
  induction l with
  | nil => rfl
  | cons p ps ih =>
    by_cases hp : p.userId = u
    · simp [toggleFirstReady, hp]
    · simp [toggleFirstReady, hp, ih]

theorem playerReady_players (room : BattleRoom) (u : String) :
    ((playerReady room u).1).players = toggleFirstReady room.players u := by
  by_cases hany : room.players.any (fun p => decide (p.userId = u)) = true
  · simp only [playerReady, hany, if_true]
    split <;> rfl
  · simp only [Bool.not_eq_true] at hany
    simp [playerReady, hany, toggleFirstReady_of_not_found room.players u hany]

end Lemmas

/-- Referee-created room: the referee occupies the first slot of
`players`, ahead of both debaters, as `create_room` builds it. -/
def refP : Player :=
  { userId := "R", displayname := "심판", role := Role.referee, position := none,
    isReady := false }

/-- The agree-side player of the example states. -/
def agP : Player :=
  { userId := "A", displayname := "찬성이", role := Role.player,
    position := some Position.agree, isReady := true }

/-- The disagree-side player of the example states. -/
def disP : Player :=
  { userId := "B", displayname := "반대이", role := Role.player,
    position := some Position.disagree, isReady := true }

/-- A fresh timer as `startBattleLogic` creates it. -/
def timer0 : PlayerTimer :=
  { totalTimeUsed := 0, roundTimeUsed := 0, penaltyPoints := 0, penaltyCount := 0,
    isOvertime := false, overtimeStarted := none }

/-- The agree player's timer after five overflows (15 penalty points). -/
def timer15 : PlayerTimer := { timer0 with penaltyPoints := 15 }

/-- A concrete mid-match state in a referee-created room: participant
order `[referee, agree, disagree]`, the agree player one overflow away
from the penalty cap. -/
def refFirstSt : BattleSt :=
  { stage := 3
    discussionLog := []
    messages := []
    players := [refP, agP, disP]
    subjectUuid := "subj-1"
    agreePlayer := agP
    disagreePlayer := disP
    timers := [("A", timer15), ("B", timer0)]
    currentTurnStartTime := none
    roundTimeLimit := 120000
    totalTimeLimit := 300000
    overtimeLimit := 30000
    penaltyPoints := 3
    maxPenaltyPoints := 18
    isGameEndedByPenalty := false
    aiEvaluationResult := none
    humanRefereeScores := none }

/-- The same match without the referee slot: only the two debaters. -/
def twoPlayerSt : BattleSt :=
  { refFirstSt with players := [agP, disP] }

/-- A two-player state at stage 1 with fresh timers (the agree player is
the designated speaker). -/
def stage1St : BattleSt :=
  { refFirstSt with
    stage := 1
    players := [agP, disP]
    timers := [("A", timer0), ("B", timer0)] }

/-- The AI verdict of spec scenario S4: agree 60, disagree 80, winner the
disagree player's id. -/
def s4AiVerdict : AIEvaluationResult :=
  { agree := { score := 60, good := "논리 전개", bad := "" }
    disagree := { score := 80, good := "사례 활용", bad := "" }
    winner := "B" }

/-- Claim C1: `calculateCombinedScore` at the S4 inputs (AI 60/80 with
the disagree player as winner, human 90/50) yields the blended scores
78/62 — agree ahead — yet still returns the AI winner `"B"`: the winner
is never recomputed from the blended scores, contradicting the claimed
switch to the agree player (the source's own comments mark the intended
behaviour). -/
theorem combined_score_winner_not_recomputed :
    (calculateCombinedScore s4AiVerdict { agree := 90, disagree := 50 }).agree.score = 78
      ∧ (calculateCombinedScore s4AiVerdict { agree := 90, disagree := 50 }).disagree.score = 62
      ∧ (calculateCombinedScore s4AiVerdict { agree := 90, disagree := 50 }).winner = "B" := by
  refine ⟨?_, ?_, ?_⟩ <;>
    norm_num [calculateCombinedScore, jsRound, jsMax, jsMin, s4AiVerdict]

/-- Claim C5: for every AI verdict and every human score pair, the
per-side final scores of `calculateCombinedScore` are
`round(ai·0.4 + human·0.6)` clamped into [0, 100]. -/
theorem combined_score_is_clamped_weighted_round (ai : AIEvaluationResult) (hs : HumanScores) :
    (calculateCombinedScore ai hs).agree.score
        = ((max 0 (min 100 ⌊ai.agree.score * 0.4 + hs.agree * 0.6 + 1/2⌋) : ℤ) : ℚ)
      ∧ (calculateCombinedScore ai hs).disagree.score
        = ((max 0 (min 100 ⌊ai.disagree.score * 0.4 + hs.disagree * 0.6 + 1/2⌋) : ℤ) : ℚ)
      ∧ 0 ≤ (calculateCombinedScore ai hs).agree.score
      ∧ (calculateCombinedScore ai hs).agree.score ≤ 100
      ∧ 0 ≤ (calculateCombinedScore ai hs).disagree.score
      ∧ (calculateCombinedScore ai hs).disagree.score ≤ 100 := by
  have e1 : (calculateCombinedScore ai hs).agree.score
      = ((max 0 (min 100 ⌊ai.agree.score * 0.4 + hs.agree * 0.6 + 1/2⌋) : ℤ) : ℚ) := by
    simp [calculateCombinedScore, jsRound, jsMax_eq_max, jsMin_eq_min]
  have e2 : (calculateCombinedScore ai hs).disagree.score
      = ((max 0 (min 100 ⌊ai.disagree.score * 0.4 + hs.disagree * 0.6 + 1/2⌋) : ℤ) : ℚ) := by
    simp [calculateCombinedScore, jsRound, jsMax_eq_max, jsMin_eq_min]
  refine ⟨e1, e2, ?_, ?_, ?_, ?_⟩
  · rw [e1]; exact_mod_cast le_max_left 0 _
  · rw [e1]
    exact_mod_cast max_le (by norm_num) (min_le_left 100 _)
  · rw [e2]; exact_mod_cast le_max_left 0 _
  · rw [e2]
    exact_mod_cast max_le (by norm_num) (min_le_left 100 _)

/-- Claim C9: with the continuous logistic K-factor (strictly positive)
and the logistic expected score (strictly between 0 and 1), the Elo
update strictly increases the winner's rating and strictly decreases the
loser's, for all rating pairs. -/
theorem elo_winner_gains_loser_drops (r o : ℝ) :
    r < calculateEloRating r o true ∧ calculateEloRating r o false < r := by
  have hK : 0 < 35.0115796 / (1 + Real.exp ((r - 1930.63327881) / 240.64853294))
      + 9.99989887 := by positivity
  have ht : (0 : ℝ) < (10 : ℝ) ^ ((o - r) / 400) :=
    Real.rpow_pos_of_pos (by norm_num) _
  have hEpos : 0 < 1 / (1 + (10 : ℝ) ^ ((o - r) / 400)) := by positivity
  have hElt : 1 / (1 + (10 : ℝ) ^ ((o - r) / 400)) < 1 := by
    rw [div_lt_one (by positivity)]; linarith
  constructor
  · have hgain := mul_pos hK (sub_pos.mpr hElt)
    simp only [calculateEloRating, if_true]
    nlinarith [hgain]
  · have hloss := mul_pos hK hEpos
    simp only [calculateEloRating, Bool.false_eq_true, if_false]
    nlinarith [hloss]

/-- Claim C7: `addMessage` elides duplicates — if any stored entry has
the same `(sender, text)` the state and broadcast are untouched, and in
particular adding the same `(sender, text)` twice is idempotent on the
log and produces no second broadcast. -/
theorem addMessage_dedup (st : BattleSt) (s : Sender) (txt : String) (n1 n2 : ℤ) :
    (st.messages.any (fun m => decide (m.sender = s) && decide (m.text = txt)) = true →
        addMessage st s txt n1 = (st, []))
      ∧ addMessage (addMessage st s txt n1).1 s txt n2 = ((addMessage st s txt n1).1, []) := by
  constructor
  · intro h
    simp [addMessage, h]
  · by_cases h : st.messages.any (fun m => decide (m.sender = s) && decide (m.text = txt)) = true
    · simp [addMessage, h]
    · simp only [Bool.not_eq_true] at h
      simp [addMessage, h, List.any_append]

/-- A state that already holds a judge message, for the dedup witness. -/
def dupMsgSt : BattleSt :=
  { stage1St with
    messages := [{ sender := Sender.judge, text := "중복 안내", timestamp := 1 }] }

/-- Witness for the dedup theorem: re-adding the stored judge message to
`dupMsgSt` leaves the state unchanged and emits nothing. -/
theorem addMessage_dedup_witness :
    (dupMsgSt.messages.any
        (fun m => decide (m.sender = Sender.judge) && decide (m.text = "중복 안내")) = true)
      ∧ addMessage dupMsgSt Sender.judge "중복 안내" 5 = (dupMsgSt, []) :=
  ⟨by rfl, (addMessage_dedup dupMsgSt Sender.judge "중복 안내" 5 0).1 (by rfl)⟩

/-- Claim C3 (amended): on a failed evaluation (`judge = none`) the
engine emits exactly the stage-10 start notice and `battle_error` — so
no stats mutation and no match-record insert — and the state survives
unchanged (the source's `catch` never deletes `battleStates[roomId]`). -/
theorem judge_error_emits_error_keeps_state (st : BattleSt) :
    conductAIEvaluation none st
      = (some st,
         [Event.aiJudgeMessage "토론이 종료되었습니다. AI가 채점을 시작합니다..." 10,
          Event.battleError "AI 채점 중 오류가 발생했습니다."]) := rfl

/-- Counterexample to claim C3 as stated: at the concrete state
`twoPlayerSt` a failed evaluation leaves the MatchState stored
(`some twoPlayerSt`), not deleted. -/
theorem judge_error_state_not_deleted :
    (conductAIEvaluation none twoPlayerSt).1 = some twoPlayerSt := rfl

/-- Claim C10: `referee_submit_scores` from an authorised referee while
no AI verdict is stored only records the human scores; no event is
emitted, nothing is persisted, and the state stays alive. -/
theorem referee_scores_stored_await_verdict (st : BattleSt) (scores : HumanScores)
    (refereeId : String) (ref : Player)
    (href : st.players.find? (fun p => decide (p.userId = refereeId) && decide (p.role = Role.referee))
        = some ref)
    (hai : st.aiEvaluationResult = none) :
    refereeSubmitScores st scores refereeId
      = (some { st with humanRefereeScores := some scores }, []) := by
  simp [refereeSubmitScores, href, hai]

/-- Witness for the referee-scores theorem at the concrete state
`refFirstSt` (referee `"R"`, no stored verdict). -/
theorem referee_scores_stored_await_verdict_witness :
    refereeSubmitScores refFirstSt { agree := 90, disagree := 50 } "R"
      = (some { refFirstSt with humanRefereeScores := some { agree := 90, disagree := 50 } },
         []) :=
  referee_scores_stored_await_verdict refFirstSt { agree := 90, disagree := 50 } "R" refP
    (by rfl) (by rfl)

/-- Claim C8: `player_ready` toggles the participant's `isReady` (two
toggles restore the player list exactly), and `battle_start` is
broadcast precisely when, after the toggle, at least two participants
have role `player` and at least two of those are ready — spectators and
referees are counted nowhere; `battleStarted` is set exactly on the
broadcast and otherwise keeps its value. -/
theorem player_ready_toggle_and_start (room : BattleRoom) (u : String) :
    ((playerReady room u).1).players = toggleFirstReady room.players u
      ∧ ((playerReady ((playerReady room u).1) u).1).players = room.players
      ∧ (playerReady room u).2
          = (room.players.any (fun p => decide (p.userId = u))
             && decide (2 ≤ ((toggleFirstReady room.players u).filter
                    (fun p => decide (p.role = Role.player))).length
                  ∧ 2 ≤ (((toggleFirstReady room.players u).filter
                    (fun p => decide (p.role = Role.player))).filter
                      (fun p => p.isReady)).length))
      ∧ ((playerReady room u).1).battleStarted
          = (room.battleStarted || (playerReady room u).2) := by
  refine ⟨playerReady_players room u, ?_, ?_, ?_⟩
  · rw [playerReady_players, playerReady_players, toggleFirstReady_involutive]
  · simp only [playerReady]
    split
    · rename_i hany
      split
      · rename_i hcond
        simp only [hany, Bool.true_and]
        exact (decide_eq_true hcond).symm
      · rename_i hcond
        simp only [hany, Bool.true_and]
        exact (decide_eq_false hcond).symm
    · rename_i hany
      simp only [Bool.not_eq_true] at hany
      simp [hany]
  · simp only [playerReady]
    split
    · split <;> simp
    · simp

/-- The event sequence `handleAutomaticDefeat` emits when it tears a
match down: defeated player `dp`, first-listed other participant `w`. -/
def forfeitEvents (st : BattleSt) (u : String) (dp w : Player) : List Event :=
  [Event.aiJudgeMessage (defeatText dp.displayname) 11,
   Event.battleResult (automaticVerdict st w.userId),
   Event.statsUpdated w.userId u true,
   Event.statsUpdated u w.userId false,
   Event.battleSaved st.agreePlayer.userId st.disagreePlayer.userId w.userId
     (automaticVerdict st w.userId)]

/-- Claim C2 (amended): the transition that first carries a player's
penalty points to `maxPenaltyPoints` — a time overflow adding the
penalty step, or a referee deduction — immediately fires the forfeit:
the stage-11 judge message, `battle_result` with the fabricated verdict,
both stats updates, the persisted row, and deletion of the MatchState.
The verdict's winner is the first participant listed with a different
userId (`w`), and the 100/0 scores go to the side `w` occupies. -/
theorem penalty_forfeit_fires_on_threshold
    (now : ℤ) (st : BattleSt) (u : String) (t : PlayerTimer) (dp w : Player)
    (ht : lookupTimer st.timers u = some t)
    (hdp : st.players.find? (fun p => decide (p.userId = u)) = some dp)
    (hw : st.players.find? (fun p => decide (p.userId ≠ u)) = some w)
    (_hbelow : t.penaltyPoints < st.maxPenaltyPoints) :
    (st.maxPenaltyPoints ≤ t.penaltyPoints + st.penaltyPoints →
        ∀ ty, handleTimeOverflow now st u ty = (none, forfeitEvents st u dp w))
      ∧ ∀ (points : ℤ) (refereeId : String) (ref : Player),
          st.players.find?
              (fun p => decide (p.userId = refereeId) && decide (p.role = Role.referee))
            = some ref →
          st.maxPenaltyPoints ≤ t.penaltyPoints + points →
          refereeDeductPoints st u points refereeId = (none, forfeitEvents st u dp w) := by
  have hw' : st.players.find? (fun p => !decide (p.userId = u)) = some w := by
    simpa using hw
  constructor
  · intro hth ty
    simp [handleTimeOverflow, ht, hth, handleAutomaticDefeat, hdp, hw', forfeitEvents,
      automaticVerdict]
  · intro points refereeId ref href hth
    have hmin : jsMin st.maxPenaltyPoints (t.penaltyPoints + points) = st.maxPenaltyPoints := by
      unfold jsMin; split <;> omega
    simp [refereeDeductPoints, href, hdp, ht, hmin, handleAutomaticDefeat, hw', forfeitEvents,
      automaticVerdict]

/-- Witness: in the plain two-player match `twoPlayerSt`, the overflow
that lifts the agree player from 15 to 18 penalty points forfeits at
once, with the disagree player as winner. -/
theorem penalty_forfeit_fires_on_threshold_witness :
    handleTimeOverflow 0 twoPlayerSt "A" OverflowType.round
      = (none, forfeitEvents twoPlayerSt "A" agP disP) :=
  (penalty_forfeit_fires_on_threshold 0 twoPlayerSt "A" timer15 agP disP
      (by rfl) (by rfl) (by rfl) (by decide)).1 (by decide) OverflowType.round

/-- Counterexample to claim C2 as stated: in the referee-created room
`refFirstSt` (participants `[referee "R", agree "A", disagree "B"]`) the
referee deduction that carries the agree player to 18 points does
forfeit, but the fabricated verdict names the referee `"R"` as winner
and awards 0 to BOTH sides — not 100 to the non-offending player `"B"`. -/
theorem penalty_forfeit_winner_misassigned_cex :
    (refereeDeductPoints refFirstSt "A" 3 "R").1 = none
      ∧ (refereeDeductPoints refFirstSt "A" 3 "R").2
          = [Event.aiJudgeMessage (defeatText "찬성이") 11,
             Event.battleResult
               { agree := { score := 0, good := "시간 관리 우수", bad := "" }
                 disagree := { score := 0, good := "시간 관리 우수", bad := "" }
                 winner := "R" },
             Event.statsUpdated "R" "A" true,
             Event.statsUpdated "A" "R" false,
             Event.battleSaved "A" "B" "R"
               { agree := { score := 0, good := "시간 관리 우수", bad := "" }
                 disagree := { score := 0, good := "시간 관리 우수", bad := "" }
                 winner := "R" }]
      ∧ refFirstSt.disagreePlayer.userId = "B" ∧ ("R" : String) ≠ "B" :=
  ⟨rfl, rfl, rfl, by decide⟩

/-- Claim C4 (amended): `send_message` never checks who the designated
speaker is.  A sender absent from the player list, or any message after
a penalty end, is dropped silently with no state change and no event; a
listed sender WITHOUT a timer entry (referee or spectator) while a turn
is running makes the unguarded timer read throw, aborting the handler
with the state untouched and nothing emitted; and a message from a
listed participant that passes the time check without throwing is
processed — appended to `discussionLog` with the current stage and the
phase advanced by exactly one — regardless of the phase's speaker. -/
theorem send_message_ignores_speaker (now : ℤ)
    (judge : Option (AIEvaluationResult × String)) (st : BattleSt) (u msg : String) :
    (st.players.find? (fun p => decide (p.userId = u)) = none →
        sendMessage now judge st u msg = HandlerOutcome.returned (some st) [])
      ∧ (st.isGameEndedByPenalty = true →
        sendMessage now judge st u msg = HandlerOutcome.returned (some st) [])
      ∧ ((st.players.find? (fun p => decide (p.userId = u))).isSome = true →
          st.isGameEndedByPenalty = false →
          updatePlayerTime now st u = none →
          sendMessage now judge st u msg = HandlerOutcome.thrown)
      ∧ ∀ pi st1, st.players.find? (fun p => decide (p.userId = u)) = some pi →
          st.isGameEndedByPenalty = false →
          updatePlayerTime now st u = some st1 →
          checkTimeLimit now st1 u = some ((some st1, []), false) →
          ∀ st' evs, sendMessage now judge st u msg = HandlerOutcome.returned (some st') evs →
            st'.stage = st.stage + 1
              ∧ st'.discussionLog
                  = st.discussionLog ++ [{ userId := u, message := msg, stage := st.stage }] := by
  refine ⟨?_, ?_, ?_, ?_⟩
  · intro h
    simp [sendMessage, h]
  · intro h
    rcases hf : st.players.find? (fun p => decide (p.userId = u)) with _ | pi <;>
      simp [sendMessage, hf, h]
  · intro hfs hflagf hupd
    rcases hf : st.players.find? (fun p => decide (p.userId = u)) with _ | pi
    · rw [hf] at hfs
      simp at hfs
    · simp [sendMessage, hf, hflagf, hupd]
  · intro pi st1 hf hflag hupd hck st' evs hsm
    have hup := updatePlayerTime_fields now st u st1 hupd
    have hflag1 : st1.isGameEndedByPenalty = false := by
      rw [hup.2.2.2.2.2.2]; exact hflag
    simp only [sendMessage, hf, hflag, Bool.false_eq_true, if_false, hupd, hck, hflag1,
      HandlerOutcome.returned.injEq] at hsm
    have hpr := proceedToNextStage_fst_alive judge now _ st' hsm.1
    constructor
    · rw [hpr.1]
      simp only [addMessage_stage]
      simp [hup.1]
    · rw [hpr.2]
      simp only [addMessage_log]
      simp [hup.1, hup.2.1]

/-- Counterexample to claim C4 as stated: at stage 1 (the agree player
`"A"` is the designated speaker) a `send_message` from the disagree
player `"B"` is not rejected — the phase advances to 2 and the message
is appended to the discussion log. -/
theorem send_message_non_speaker_processed_cex :
    (((sendMessage 0 none stage1St "B" "끼어들기").stateOf stage1St).map BattleSt.stage)
        = some 2
      ∧ (((sendMessage 0 none stage1St "B" "끼어들기").stateOf
            stage1St).map BattleSt.discussionLog)
          = some [{ userId := "B", message := "끼어들기", stage := 1 }] := by
  exact ⟨rfl, rfl⟩

/-- Witness: a message from a listed participant with a timer at stage 1
of `stage1St` is processed — the log receives the entry at stage 1. -/
theorem send_message_ignores_speaker_witness :
    ((sendMessage 0 none stage1St "A" "모두발언").stateOf stage1St).map BattleSt.discussionLog
      = some [{ userId := "A", message := "모두발언", stage := 1 }] := by
  rcases hsm : sendMessage 0 none stage1St "A" "모두발언" with _ | ⟨ost, evs⟩
  · have hnt : (sendMessage 0 none stage1St "A" "모두발언").isThrown = false := by rfl
    rw [hsm] at hnt
    simp [HandlerOutcome.isThrown] at hnt
  · cases ost with
    | none =>
      have hs : ((sendMessage 0 none stage1St "A" "모두발언").stateOf stage1St).isSome
          = true := by rfl
      rw [hsm] at hs
      simp [HandlerOutcome.stateOf] at hs
    | some st' =>
      have h := (send_message_ignores_speaker 0 none stage1St "A" "모두발언").2.2.2 agP
        stage1St (by rfl) (by rfl) (by rfl) (by rfl) st' evs hsm
      simp only [HandlerOutcome.stateOf, Option.map_some']
      rw [h.2]
      rfl

/-- Claim C6: over the life of a MatchState, a `send_message` never
moves the stored phase except by exactly +1 (rejected messages — and
aborted runs, which by construction leave the store untouched — change
nothing); any accepted message advances it by exactly one; and when the
handler tears the match down, either the stage-11 penalty sentinel was
emitted (forfeit, possible at any phase) or the match had just reached
phase 10 (normal evaluation teardown). -/
theorem send_message_phase_discipline (now : ℤ)
    (judge : Option (AIEvaluationResult × String)) (st : BattleSt) (u msg : String) :
    (∀ st' evs, sendMessage now judge st u msg = HandlerOutcome.returned (some st') evs →
        st.stage ≤ st'.stage ∧ (st'.stage = st.stage + 1 ∨ st'.stage = st.stage))
      ∧ ((st.players.find? (fun p => decide (p.userId = u))).isSome = true →
          st.isGameEndedByPenalty = false →
          ∀ st1, updatePlayerTime now st u = some st1 →
          ∀ r2 b2, checkTimeLimit now st1 u = some (r2, b2) →
          r2.1.isSome = true →
          ∀ st' evs, sendMessage now judge st u msg = HandlerOutcome.returned (some st') evs →
            st'.stage = st.stage + 1)
      ∧ ∀ evs, sendMessage now judge st u msg = HandlerOutcome.returned none evs →
          (∃ s, Event.aiJudgeMessage s 11 ∈ evs) ∨ st.stage + 1 = 10 := by
  rcases hf : st.players.find? (fun p => decide (p.userId = u)) with _ | pi
  · have hsm : sendMessage now judge st u msg = HandlerOutcome.returned (some st) [] := by
      simp [sendMessage, hf]
    refine ⟨?_, ?_, ?_⟩
    · intro st' evs h
      rw [hsm] at h
      simp at h
      rcases h with ⟨h1, -⟩
      subst h1
      exact ⟨le_refl _, Or.inr rfl⟩
    · intro hfs
      rw [hf] at hfs
      simp at hfs
    · intro evs h
      rw [hsm] at h
      simp at h
  · by_cases hflag : st.isGameEndedByPenalty = true
    · have hsm : sendMessage now judge st u msg = HandlerOutcome.returned (some st) [] := by
        simp [sendMessage, hf, hflag]
      refine ⟨?_, ?_, ?_⟩
      · intro st' evs h
        rw [hsm] at h
        simp at h
        rcases h with ⟨h1, -⟩
        subst h1
        exact ⟨le_refl _, Or.inr rfl⟩
      · intro _ hfl
        rw [hflag] at hfl
        simp at hfl
      · intro evs h
        rw [hsm] at h
        simp at h
    · have hflagf : st.isGameEndedByPenalty = false := by
        simpa using hflag
      rcases hupd : updatePlayerTime now st u with _ | st1
      · have hsm : sendMessage now judge st u msg = HandlerOutcome.thrown := by
          simp [sendMessage, hf, hflagf, hupd]
        refine ⟨?_, ?_, ?_⟩
        · intro st' evs h
          rw [hsm] at h
          simp at h
        · intro _ _ st1 hupd'
          simp at hupd'
        · intro evs h
          rw [hsm] at h
          simp at h
      · have hup := updatePlayerTime_fields now st u st1 hupd
        rcases hck : checkTimeLimit now st1 u with _ | ⟨⟨ost2, evs2⟩, b⟩
        · have hsm : sendMessage now judge st u msg = HandlerOutcome.thrown := by
            simp [sendMessage, hf, hflagf, hupd, hck]
          refine ⟨?_, ?_, ?_⟩
          · intro st' evs h
            rw [hsm] at h
            simp at h
          · intro _ _ st1' hupd' r2 b2 hck'
            simp at hupd'
            subst hupd'
            rw [hck] at hck'
            simp at hck'
          · intro evs h
            rw [hsm] at h
            simp at h
        · cases ost2 with
          | none =>
            have hsm : sendMessage now judge st u msg = HandlerOutcome.returned none evs2 := by
              simp [sendMessage, hf, hflagf, hupd, hck]
            obtain ⟨s, hs⟩ := checkTimeLimit_sentinel now st1 u evs2 b hck
            refine ⟨?_, ?_, ?_⟩
            · intro st' evs h
              rw [hsm] at h
              simp at h
            · intro _ _ st1' hupd' r2 b2 hck' hsome
              simp at hupd'
              subst hupd'
              rw [hck] at hck'
              simp at hck'
              rw [← hck'.1] at hsome
              simp at hsome
            · intro evs h
              rw [hsm] at h
              simp at h
              left
              exact ⟨s, by rw [← h]; exact hs⟩
          | some st2 =>
            have hal := checkTimeLimit_alive now st1 u st2 evs2 b hck
            have hflag2 : st2.isGameEndedByPenalty = false := by
              rw [hal.2.2.2.2.2.2, hup.2.2.2.2.2.2]
              exact hflagf
            have hst2stage : st2.stage = st.stage := by
              rw [hal.1, hup.1]
            have key : ∀ st' evs,
                sendMessage now judge st u msg = HandlerOutcome.returned (some st') evs →
                st'.stage = st.stage + 1 := by
              intro st' evs h
              simp only [sendMessage, hf, hflagf, Bool.false_eq_true, if_false, hupd, hck,
                hflag2, HandlerOutcome.returned.injEq] at h
              have hpr := proceedToNextStage_fst_alive judge now _ st' h.1
              rw [hpr.1]
              simp only [addMessage_stage]
              simp [hst2stage]
            refine ⟨?_, ?_, ?_⟩
            · intro st' evs h
              have := key st' evs h
              omega
            · intro _ _ _ _ _ _ _ _ st' evs h
              exact key st' evs h
            · intro evs h
              right
              simp only [sendMessage, hf, hflagf, Bool.false_eq_true, if_false, hupd, hck,
                hflag2, HandlerOutcome.returned.injEq] at h
              have h10 := proceedToNextStage_fst_none judge now _ h.1
              simp only [addMessage_stage] at h10
              rw [hst2stage] at h10
              exact h10

/-- Witness: at stage 1 of `stage1St` the agree player's message is
accepted and the stored phase moves to exactly 2. -/
theorem send_message_phase_discipline_witness :
    ((sendMessage 0 none stage1St "A" "첫발언").stateOf stage1St).map BattleSt.stage
      = some 2 := by
  rcases hsm : sendMessage 0 none stage1St "A" "첫발언" with _ | ⟨ost, evs⟩
  · have hnt : (sendMessage 0 none stage1St "A" "첫발언").isThrown = false := by rfl
    rw [hsm] at hnt
    simp [HandlerOutcome.isThrown] at hnt
  · cases ost with
    | none =>
      have hs : ((sendMessage 0 none stage1St "A" "첫발언").stateOf stage1St).isSome
          = true := by rfl
      rw [hsm] at hs
      simp [HandlerOutcome.stateOf] at hs
    | some st' =>
      have h2 := (send_message_phase_discipline 0 none stage1St "A" "첫발언").2.1
        (by rfl) (by rfl) stage1St (by rfl) (some stage1St, []) false (by rfl) (by rfl)
        st' evs hsm
      simp only [HandlerOutcome.stateOf, Option.map_some']
      rw [h2]
      rfl

end DiscussionServer
